import Mathlib

/-!
Verification of the Storm coordinator's aggregation engine.

This file gives a shallow embedding of the server-side aggregation code of the
Storm uptime-monitoring system (packages/server of the repository):

* `updateTargetStatus`, `addResult`, `updateResponseTimeIntervals` and
  `calculateUptimePercentage` from `resultsManager.ts`;
* the `/api/targets/check-updates` handler and the read cache of `index.ts`;
* `hasUpdatedSince` from `targetManager.ts`;
* `sendAlert` from `alertManager.ts`;
* the target-status rebuild loop of `loadResultsFromFile`.

Modelling conventions:

* JavaScript insertion-ordered objects and `Map`s are association lists
  (`lookupA` / `setA` / `deleteA`), updated in place on an existing key and
  appended otherwise, exactly as JS key assignment behaves.
* Timestamps are `Nat` (milliseconds since the epoch).  The server is assumed
  to run in the UTC time zone, so `new Date(ts).toISOString().split()` on the
  date part and `setHours(0,0,0,0)` both reduce to arithmetic on
  `ts / 86400000`; a calendar date string is represented by its day index.
* JS numbers appearing in averages and percentages are modelled as `ℚ`;
  quantities the code can drive negative (`downtimeMs`, the sweep counter)
  are `ℤ`.
* `Math.round` is `jsRound` (round half towards positive infinity).
-/

namespace Storm

/-- Lookup in an association list (models JS object / Map read). -/
def lookupA {α β : Type} [DecidableEq α] : List (α × β) → α → Option β
  | [], _ => none
  | (k, v) :: rest, a => if k = a then some v else lookupA rest a

/-- Write to an association list: overwrite the first binding of the key in
place, append a new binding otherwise (models JS object / Map assignment,
which keeps insertion order). -/
def setA {α β : Type} [DecidableEq α] : List (α × β) → α → β → List (α × β)
  | [], a, b => [(a, b)]
  | (k, v) :: rest, a, b => if k = a then (a, b) :: rest else (k, v) :: setA rest a b

/-- Remove all bindings of a key (models `Map.delete`). -/
def deleteA {α β : Type} [DecidableEq α] (l : List (α × β)) (a : α) : List (α × β) :=
  l.filter (fun p => decide (p.1 ≠ a))

theorem lookupA_setA {α β : Type} [DecidableEq α] (l : List (α × β)) (k a : α) (b : β) :
    lookupA (setA l k b) a = if a = k then some b else lookupA l a := by
  induction l with
  | nil =>
    simp only [setA, lookupA]
    by_cases h : a = k
    · simp [h]
    · have h' : ¬ k = a := fun hh => h hh.symm
      simp [h, h']
  | cons p rest ih =>
    obtain ⟨k', v'⟩ := p
    simp only [setA]
    by_cases hk : k' = k
    · subst hk
      rw [if_pos rfl]
      by_cases h : a = k'
      · subst h
        simp [lookupA]
      · have h' : ¬ k' = a := fun hh => h hh.symm
        simp [lookupA, h, h']
    · rw [if_neg hk]
      by_cases h1 : k' = a
      · subst h1
        simp [lookupA, hk]
      · simp [lookupA, h1, ih]

theorem lookupA_eq_some_of_length_one {α β : Type} [DecidableEq α]
    (l : List (α × β)) (a : α) (b : β)
    (h : lookupA l a = some b) (hlen : l.length = 1) : l = [(a, b)] := by
  match l with
  | [] => simp at hlen
  | [(k, v)] =>
    simp only [lookupA] at h
    by_cases hk : k = a
    · subst hk
      simp at h
      simp [h]
    · simp [hk, lookupA] at h
  | p :: q :: rest => simp at hlen

theorem mem_setA {α β : Type} [DecidableEq α] (l : List (α × β)) (k : α) (b : β) :
    ∀ p ∈ setA l k b, p = (k, b) ∨ p ∈ l := by
  induction l with
  | nil => intro p hp; simp [setA] at hp; simp [hp]
  | cons q rest ih =>
    intro p hp
    simp only [setA] at hp
    by_cases hk : q.1 = k
    · rw [if_pos hk] at hp
      rcases List.mem_cons.mp hp with h | h
      · exact Or.inl h
      · exact Or.inr (List.mem_cons_of_mem _ h)
    · rw [if_neg hk] at hp
      rcases List.mem_cons.mp hp with h | h
      · exact Or.inr (h ▸ List.mem_cons_self _ _)
      · rcases ih p h with h' | h'
        · exact Or.inl h'
        · exact Or.inr (List.mem_cons_of_mem _ h')

/-! ## Data model (shared type declarations of the repository) -/

/-- Shared type `DowntimeRecord`: one incident, open while
`endTime = none`. -/
structure DowntimeRecord where
  startTime : Nat
  endTime : Option Nat
deriving DecidableEq

/-- Shared type `ResponseTimeInterval`: a 30-minute bucket of
successful response times. -/
structure ResponseTimeInterval where
  startTime : Nat
  endTime : Nat
  avgResponseTime : ℚ
  count : Nat
deriving DecidableEq

/-- Shared type `DailyDowntimeRecord`.  The `date` string is
represented by its UTC day index. -/
structure DailyDowntimeRecord where
  date : Nat
  downtimeMs : ℤ
  incidents : List DowntimeRecord
  responseTimeIntervals : List ResponseTimeInterval
  isDown : Bool
deriving DecidableEq

/-- Shared type `TargetStatus`: the derived per-target consensus. -/
structure TargetStatus where
  targetId : Nat
  isDown : Bool
  agentsReporting : List (String × Bool)
  lastUpdated : Nat
deriving DecidableEq

/-- Shared type `MonitoringResult` (the `statusCode` and `error`
fields have no effect on the aggregation state and are omitted). -/
structure MonitoringResult where
  targetId : Nat
  timestamp : Nat
  success : Bool
  responseTime : Option ℚ
deriving DecidableEq

def MS_PER_DAY : Nat := 86400000

def THIRTY_MINUTES : Nat := 30 * 60 * 1000

/-- Field `minAgentsForDowntime` of `ResultsManager`, initialised to 2 and
never reassigned. -/
def minAgentsForDowntime : Nat := 2

/-- Models `getDateString`: `new Date(ts).toISOString()` taken up to the date
part, i.e. the UTC day index of the timestamp. -/
def getDateString (timestamp : Nat) : Nat := timestamp / MS_PER_DAY

/-! ## `ResultsManager.updateTargetStatus` -/

/-- Count of agents reporting down (the `downCount` loop over
`Object.values(status.agentsReporting)`). -/
def downCount (reporting : List (String × Bool)) : Nat :=
  reporting.foldl (fun acc p => if p.2 then acc + 1 else acc) 0

/-- Fresh `TargetStatus` as created by `updateTargetStatus` and
`getOrCreateTargetStatus` when the target has no entry yet. -/
def freshTargetStatus (now targetId : Nat) : TargetStatus :=
  { targetId := targetId, isDown := false, agentsReporting := [], lastUpdated := now }

/-- Body of `ResultsManager.updateTargetStatus` acting on one `TargetStatus`:
record the submitting agent's report (`agentsReporting[agentId] ← isDown`),
then recompute the consensus flag: a single reporting agent is authoritative,
otherwise the target is down when at least `minAgentsForDowntime` agents
report down. -/
def updateTargetStatusCore (now : Nat) (status : TargetStatus)
    (agentId : String) (isDown : Bool) : TargetStatus :=
  let reporting := setA status.agentsReporting agentId isDown
  let dc := downCount reporting
  let totalAgents := reporting.length
  let newIsDown := if totalAgents = 1 then isDown else decide (minAgentsForDowntime ≤ dc)
  { status with agentsReporting := reporting, isDown := newIsDown, lastUpdated := now }

/-- Embedding of `ResultsManager.updateTargetStatus` (resultsManager.ts
195-251): fetch or create the target's status, update the submitting agent's
report and re-evaluate the consensus. -/
def updateTargetStatus (now : Nat) (statusMap : List (Nat × TargetStatus))
    (targetId : Nat) (agentId : String) (isDown : Bool) : List (Nat × TargetStatus) :=
  setA statusMap targetId
    (updateTargetStatusCore now ((lookupA statusMap targetId).getD (freshTargetStatus now targetId))
      agentId isDown)

/-- C1: after a processed `CheckResult`, the submitting agent's entry in the
target's `agentsReporting` map equals `!success`, and the consensus flag
satisfies: with `A` agents reporting and `D` of them down, if `A = 1` the
single agent's report (necessarily the submitter's) is authoritative, and if
`A ≥ 2` then `isDown` holds exactly when `D ≥ minAgentsForDowntime`. -/
theorem updateTargetStatus_consensus (now : Nat) (statusMap : List (Nat × TargetStatus))
    (targetId : Nat) (agentId : String) (success : Bool) :
    ∃ st, lookupA (updateTargetStatus now statusMap targetId agentId (!success)) targetId = some st ∧
      lookupA st.agentsReporting agentId = some (!success) ∧
      (st.agentsReporting.length = 1 →
        st.agentsReporting = [(agentId, !success)] ∧ st.isDown = !success) ∧
      (2 ≤ st.agentsReporting.length →
        (st.isDown = true ↔ minAgentsForDowntime ≤ downCount st.agentsReporting)) := by
  set status := (lookupA statusMap targetId).getD (freshTargetStatus now targetId) with hstatus
  set reporting := setA status.agentsReporting agentId (!success) with hrep
  have hfields : (updateTargetStatusCore now status agentId (!success)).agentsReporting = reporting ∧
      (updateTargetStatusCore now status agentId (!success)).isDown =
        (if reporting.length = 1 then (!success)
         else decide (minAgentsForDowntime ≤ downCount reporting)) := by
    constructor <;> rfl
  refine ⟨updateTargetStatusCore now status agentId (!success), ?_, ?_, ?_, ?_⟩
  · unfold updateTargetStatus
    rw [← hstatus, lookupA_setA]
    simp
  · rw [hfields.1, hrep, lookupA_setA]
    simp
  · intro hlen
    rw [hfields.1] at hlen ⊢
    have hmem : lookupA reporting agentId = some (!success) := by
      rw [hrep, lookupA_setA]; simp
    have hsingle := lookupA_eq_some_of_length_one reporting agentId (!success) hmem hlen
    refine ⟨hsingle, ?_⟩
    rw [hfields.2, if_pos hlen]
  · intro hlen
    rw [hfields.1] at hlen ⊢
    have h1 : ¬ (reporting.length = 1) := by omega
    rw [hfields.2, if_neg h1]
    constructor
    · intro h; exact of_decide_eq_true h
    · intro h; exact decide_eq_true h

/-- Witness for C1 at a concrete input: a first report from agent `a` with a
failed check yields a status whose map records `a ↦ true`. -/
theorem updateTargetStatus_consensus_witness :
    ∃ st, lookupA (updateTargetStatus 7 [] 3 "a" (!false)) 3 = some st ∧
      lookupA st.agentsReporting "a" = some (!false) := by
  obtain ⟨st, h1, h2, _, _⟩ := updateTargetStatus_consensus 7 [] 3 "a" false
  exact ⟨st, h1, h2⟩

/-! ## Alert sink (`alertManager.ts`) -/

/-- Observable behaviour of one `sendAlert` call: whether an outbound webhook
request was issued, and whether an exception escapes to the caller. -/
structure AlertOutcome where
  requested : Bool
  raised : Bool
deriving DecidableEq

/-- Embedding of `sendAlert` (alertManager.ts 6-56).  `webhook` is the
`DISCORD_WEBHOOK` environment variable; `fetchOutcome` is the environment's
answer to the webhook request, either a response (with its `ok` flag) or a
thrown transport error.  The early return on an unset webhook issues no
request; the `try`/`catch` around the `fetch` turns a thrown error into a log
line, so no branch lets an exception escape.  Payload construction before the
`try` is object-literal assembly and cannot throw. -/
def sendAlert (webhook : Option String) (fetchOutcome : Except String Bool) : AlertOutcome :=
  match webhook with
  | none => { requested := false, raised := false }
  | some _ =>
    match fetchOutcome with
    | Except.ok _ => { requested := true, raised := false }
    | Except.error _ => { requested := true, raised := false }

/-- C9: `sendAlert` never propagates a failure to its caller: with the
webhook URL unset it returns without issuing a request, and a failed request
is caught, so in every case no exception reaches the calling aggregator path
(which therefore completes unchanged — in `addResult` the incident is
recorded independently of the un-awaited alert promise). -/
theorem sendAlert_never_propagates (webhook : Option String) (fetchOutcome : Except String Bool) :
    (sendAlert webhook fetchOutcome).raised = false ∧
      (webhook = none → (sendAlert webhook fetchOutcome).requested = false) := by
  cases webhook with
  | none => exact ⟨rfl, fun _ => rfl⟩
  | some u =>
    refine ⟨?_, fun h => by cases h⟩
    cases fetchOutcome <;> rfl

/-- Witness for C9 at a concrete input: unset webhook and a failing transport. -/
theorem sendAlert_never_propagates_witness :
    (sendAlert none (Except.error "connect ECONNREFUSED")).raised = false ∧
      (sendAlert none (Except.error "connect ECONNREFUSED")).requested = false := by
  have h := sendAlert_never_propagates none (Except.error "connect ECONNREFUSED")
  exact ⟨h.1, h.2 rfl⟩

/-! ## Target-set change polling (`targetManager.ts`, `index.ts`) -/

/-- Shared type `Target`. -/
structure StormTarget where
  id : Nat
  url : String
  name : String
  interval : Nat
  timeout : Nat
deriving DecidableEq

/-- Embedding of `TargetManager.hasUpdatedSince` (targetManager.ts 433-435):
`lastUpdated > timestamp`. -/
def hasUpdatedSince (lastUpdated timestamp : Nat) : Bool :=
  decide (timestamp < lastUpdated)

/-- Response shape of the `/api/targets/check-updates` handler.  The handler
returns exactly the fields `success`, `hasUpdates` and `targets`; no
`lastUpdated` field is produced. -/
structure CheckUpdatesResponse where
  success : Bool
  hasUpdates : Bool
  targets : List StormTarget
deriving DecidableEq

/-- Embedding of the `GET /api/targets/check-updates` handler (index.ts
524-551).  The query string is a list of (parameter name, parsed numeric
value) pairs; the handler reads the parameter named `lastUpdate` and falls
back to 0 when it is absent, then answers with `hasUpdatedSince` and, when
there are updates, the full target list. -/
def checkUpdates (lastUpdated : Nat) (targets : List StormTarget)
    (query : List (String × Nat)) : CheckUpdatesResponse :=
  let lastUpdate := (lookupA query "lastUpdate").getD 0
  let hasUpdates := hasUpdatedSince lastUpdated lastUpdate
  { success := true, hasUpdates := hasUpdates,
    targets := if hasUpdates then targets else [] }

/-- C4 (code bug, evaluated at the failing input): the agent polls with
`?lastChecked=N`, but the handler reads the parameter `lastUpdate`; a request
carrying only `lastChecked = 10` against a target set last updated at time 5
is treated as `lastChecked = 0` and answers `hasUpdates = true`, although
`5 > 10` is false — and the response carries the target list, never the
`lastUpdated` value the claim (and the agent at agent/index.ts 371-390)
expects.  The claim would require `hasUpdates = (10 < 5) = false`. -/
theorem checkUpdates_ignores_lastChecked :
    (checkUpdates 5 [] [("lastChecked", 10)]).hasUpdates = true ∧ ¬ (10 < 5) := by
  constructor
  · rfl
  · decide

/-! ## Read cache of the HTTP layer (`index.ts`) -/

def CACHE_TTL : Nat := 10000

/-- Embedding of `getCachedData` (index.ts 38-51) over a cache mapping keys to
(data, timestamp) pairs; the cached data is abstracted to a `Nat` tag.
Returns the served value and the updated cache: a fresh entry is stored on a
miss or an expired hit. -/
def getCachedData (now ttl : Nat) (key : String)
    (cache : List (String × Nat × Nat)) (fresh : Nat) : Nat × List (String × Nat × Nat) :=
  match lookupA cache key with
  | some entry =>
    if now - entry.2 < ttl then (entry.1, cache)
    else (fresh, setA cache key (fresh, now))
  | none => (fresh, setA cache key (fresh, now))

/-- Cache key used by `GET /api/uptime` (index.ts 306-313). -/
def uptimeCacheKey (targetId date : Option String) : String :=
  "uptime-data-" ++ targetId.getD "all" ++ "-" ++ date.getD "all"

/-- Cache key used by `GET /api/latency` (index.ts 436-442). -/
def latencyCacheKey (targetId date : Option String) : String :=
  "latency-data-" ++ targetId.getD "all" ++ "-" ++ date.getD "today"

/-- Cache key used by `GET /api/target-status`. -/
def targetStatusCacheKey : String := "target-status"

/-- Cache invalidation performed by the `POST /api/results` handler
(index.ts 253-258): it deletes the literal keys `latency-data`, `uptime-data`
and `target-status`. -/
def resultsSubmissionInvalidation (cache : List (String × Nat × Nat)) :
    List (String × Nat × Nat) :=
  deleteA (deleteA (deleteA cache "latency-data") "uptime-data") "target-status"

/-- C5 (code bug, evaluated at the failing input): the keys deleted on a
result submission do not match the keys the read handlers cache under, so a
`GET /api/uptime` (and `/api/latency`) served within the 10-second TTL after
a `POST /api/results` returns the value cached before the submission (tag 1)
instead of recomputing (tag 2); only `target-status`, whose key matches, is
recomputed. -/
theorem resultsSubmissionInvalidation_leaves_stale_reads :
    ((getCachedData 1000 CACHE_TTL (uptimeCacheKey none none)
        (resultsSubmissionInvalidation
          (getCachedData 0 CACHE_TTL (uptimeCacheKey none none) [] 1).2) 2).1 = 1) ∧
    ((getCachedData 1000 CACHE_TTL (latencyCacheKey none none)
        (resultsSubmissionInvalidation
          (getCachedData 0 CACHE_TTL (latencyCacheKey none none) [] 1).2) 2).1 = 1) ∧
    ((getCachedData 1000 CACHE_TTL targetStatusCacheKey
        (resultsSubmissionInvalidation
          (getCachedData 0 CACHE_TTL targetStatusCacheKey [] 1).2) 2).1 = 2) := by
  refine ⟨?_, ?_, ?_⟩ <;> rfl

/-! ## Kernel-computable field operations on `ℚ`

The standard `ℚ` operations of this toolchain are opaque to the kernel, so
closed scenario evaluations could not be checked with them.  The embedding
therefore uses the following operations, each proved equal to the standard
one, so every theorem still speaks about ordinary rational arithmetic. -/

def qAdd (a b : ℚ) : ℚ := mkRat (a.num * b.den + b.num * a.den) (a.den * b.den)

def qSub (a b : ℚ) : ℚ := mkRat (a.num * b.den - b.num * a.den) (a.den * b.den)

def qMul (a b : ℚ) : ℚ := mkRat (a.num * b.num) (a.den * b.den)

def qInv (b : ℚ) : ℚ := mkRat (Int.sign b.num * b.den) b.num.natAbs

def qDiv (a b : ℚ) : ℚ := qMul a (qInv b)

theorem qAdd_eq (a b : ℚ) : qAdd a b = a + b := by
  have ha : ((a.den : ℚ)) ≠ 0 := by exact_mod_cast a.den_nz
  have hb : ((b.den : ℚ)) ≠ 0 := by exact_mod_cast b.den_nz
  rw [qAdd, Rat.mkRat_eq_div]
  push_cast
  conv_rhs => rw [← Rat.num_div_den a, ← Rat.num_div_den b]
  field_simp

theorem qSub_eq (a b : ℚ) : qSub a b = a - b := by
  have ha : ((a.den : ℚ)) ≠ 0 := by exact_mod_cast a.den_nz
  have hb : ((b.den : ℚ)) ≠ 0 := by exact_mod_cast b.den_nz
  rw [qSub, Rat.mkRat_eq_div]
  push_cast
  conv_rhs => rw [← Rat.num_div_den a, ← Rat.num_div_den b]
  rw [div_sub_div _ _ ha hb]
  ring_nf

theorem qMul_eq (a b : ℚ) : qMul a b = a * b := by
  have ha : ((a.den : ℚ)) ≠ 0 := by exact_mod_cast a.den_nz
  have hb : ((b.den : ℚ)) ≠ 0 := by exact_mod_cast b.den_nz
  rw [qMul, Rat.mkRat_eq_div]
  push_cast
  conv_rhs => rw [← Rat.num_div_den a, ← Rat.num_div_den b]
  field_simp

theorem qInv_eq (b : ℚ) : qInv b = b⁻¹ := by
  rw [qInv, Rat.inv_def', Rat.divInt_eq_div, Rat.mkRat_eq_div]
  rcases lt_trichotomy b.num 0 with h | h | h
  · push_cast [Int.sign_eq_neg_one_of_neg h, Int.cast_natAbs]
    rw [abs_of_neg (a := (b.num : ℚ)) (by exact_mod_cast h)]
    ring_nf
  · simp [h]
  · push_cast [Int.sign_eq_one_of_pos h, Int.cast_natAbs]
    rw [abs_of_pos (a := (b.num : ℚ)) (by exact_mod_cast h)]
    ring_nf

theorem qDiv_eq (a b : ℚ) : qDiv a b = a / b := by
  rw [qDiv, qMul_eq, qInv_eq, div_eq_mul_inv]

/-! ## `ResultsManager.addResult` and the incident state machine -/

/-- Models `calculateDowntimeDuration` (resultsManager.ts 157-164): duration
of an incident, up to `now` while it is still open.  The subtraction is over
`ℤ` because the code computes plain JS subtraction, which can go negative. -/
def calculateDowntimeDuration (now startTime : Nat) (endTime : Option Nat) : ℤ :=
  match endTime with
  | none => (now : ℤ) - (startTime : ℤ)
  | some e => (e : ℤ) - (startTime : ℤ)

/-- Update the first element satisfying the predicate in place (models the JS
pattern of mutating the object returned by `Array.find`). -/
def updateFirst {α : Type} (p : α → Bool) (f : α → α) : List α → List α
  | [] => []
  | x :: xs => if p x then f x :: xs else x :: updateFirst p f xs

/-- Local midnight of a timestamp; under the UTC assumption
`setHours(0,0,0,0)` truncates to the day boundary. -/
def startOfDay (ts : Nat) : Nat := (ts / MS_PER_DAY) * MS_PER_DAY

/-- Start of the 30-minute interval containing `ts`, as computed in
`updateResponseTimeIntervals`: `startOfDay + intervalIndex * intervalMs`. -/
def intervalStartOf (ts : Nat) : Nat :=
  startOfDay ts + ((ts - startOfDay ts) / THIRTY_MINUTES) * THIRTY_MINUTES

/-- End timestamp stored for the 30-minute interval containing `ts`:
`startOfDay + (intervalIndex + 1) * intervalMs - 1`. -/
def intervalEndOf (ts : Nat) : Nat :=
  startOfDay ts + (((ts - startOfDay ts) / THIRTY_MINUTES) + 1) * THIRTY_MINUTES - 1

/-- Embedding of `ResultsManager.updateResponseTimeIntervals`
(resultsManager.ts 363-400).  The guard is the JS test
`!result.success || !result.responseTime`, so a missing response time and a
response time of 0 (falsy) both leave the record unchanged.  Otherwise the
30-minute interval containing the timestamp is located by its start and end
times; a missing interval is created with the response time as initial
average, an existing one is updated with
`avg ← (avg·count + r) / (count + 1); count ← count + 1`. -/
def updateResponseTimeIntervals (rec : DailyDowntimeRecord) (result : MonitoringResult) :
    DailyDowntimeRecord :=
  if !result.success then rec else
  match result.responseTime with
  | none => rec
  | some r =>
    if r = 0 then rec else
    let s := intervalStartOf result.timestamp
    let e := intervalEndOf result.timestamp
    match rec.responseTimeIntervals.find? (fun i => i.startTime == s && i.endTime == e) with
    | none =>
      { rec with responseTimeIntervals :=
          rec.responseTimeIntervals ++
            [{ startTime := s, endTime := e, avgResponseTime := r, count := 1 }] }
    | some _ =>
      { rec with responseTimeIntervals :=
          (updateFirst (fun i => i.startTime == s && i.endTime == e)
            (fun old =>
              { old with count := old.count + 1,
                         avgResponseTime :=
                           qDiv (qAdd (qMul old.avgResponseTime (old.count : ℚ)) r)
                             ((old.count + 1 : Nat) : ℚ) })
            rec.responseTimeIntervals) }

/-- Fresh `DailyDowntimeRecord` as created by `addResult` for an unseen
(agent, target, date) key. -/
def freshDailyRecord (d : Nat) : DailyDowntimeRecord :=
  { date := d, downtimeMs := 0, incidents := [], responseTimeIntervals := [], isDown := false }

/-- Incident state machine of `addResult` (resultsManager.ts 324-356), acting
on the daily record given the consensus flag: a consensus DOWN on a record
marked up appends an open incident at the result's timestamp; a consensus UP
on a record marked down closes the last incident at the result's timestamp
and accumulates its (possibly negative) duration. -/
def incidentStep (now : Nat) (isDown : Bool) (timestamp : Nat) (rec : DailyDowntimeRecord) :
    DailyDowntimeRecord :=
  if isDown && !rec.isDown then
    { rec with incidents := rec.incidents ++ [{ startTime := timestamp, endTime := none }],
               isDown := true }
  else if !isDown && rec.isDown then
    match rec.incidents.getLast? with
    | some lastIncident =>
      match lastIncident.endTime with
      | none =>
        { rec with
            incidents := rec.incidents.dropLast ++
              [{ startTime := lastIncident.startTime, endTime := some timestamp }],
            downtimeMs := rec.downtimeMs +
              calculateDowntimeDuration now lastIncident.startTime (some timestamp),
            isDown := false }
      | some _ => rec
    | none => rec
  else rec

/-- Nested results store of `ResultsManager`:
agentId → targetId → day → `DailyDowntimeRecord`. -/
@[reducible]
def ResultsStore : Type := List (String × List (Nat × List (Nat × DailyDowntimeRecord)))

/-- In-memory state of `ResultsManager`: the results store plus the derived
target-status map. -/
structure ServerState where
  results : ResultsStore
  targetStatus : List (Nat × TargetStatus)
deriving DecidableEq

def emptyState : ServerState := { results := [], targetStatus := [] }

/-- Embedding of `ResultsManager.addResult` (resultsManager.ts 269-361): get
or create the daily record keyed by (agent, target, date of the timestamp),
fold the response time into its 30-minute bucket, update the per-agent report
and consensus, then drive the incident state machine with the consensus
flag.  `now` is the wall clock (used for `lastUpdated` fields). -/
def addResult (now : Nat) (state : ServerState) (agentId : String)
    (result : MonitoringResult) : ServerState :=
  let dateString := getDateString result.timestamp
  let agentResults := (lookupA state.results agentId).getD []
  let targetResults := (lookupA agentResults result.targetId).getD []
  let dailyRecord := (lookupA targetResults dateString).getD (freshDailyRecord dateString)
  let rec1 := updateResponseTimeIntervals dailyRecord result
  let statusMap := updateTargetStatus now state.targetStatus result.targetId agentId (!result.success)
  let isDown := ((lookupA statusMap result.targetId).getD
    (freshTargetStatus now result.targetId)).isDown
  let rec2 := incidentStep now isDown result.timestamp rec1
  { results := setA state.results agentId
      (setA agentResults result.targetId (setA targetResults dateString rec2)),
    targetStatus := statusMap }

/-- One submission processed by the aggregator: the wall-clock time of
processing, the submitting agent and the result. -/
structure Step where
  now : Nat
  agentId : String
  result : MonitoringResult

/-- Run a sequence of submissions from the empty coordinator state. -/
def runSteps (steps : List Step) : ServerState :=
  steps.foldl (fun st s => addResult s.now st s.agentId s.result) emptyState

/-- Daily record stored for an (agent, target, day) key. -/
def recordAt (state : ServerState) (agentId : String) (targetId d : Nat) :
    Option DailyDowntimeRecord :=
  (lookupA state.results agentId).bind fun am =>
    (lookupA am targetId).bind fun tm => lookupA tm d

/-! ## `ResultsManager.calculateUptimePercentage` -/

/-- Floor of a rational, written with `Int.fdiv` so that the kernel can
evaluate it. -/
def ratFloor (q : ℚ) : ℤ := Int.fdiv q.num (q.den : ℤ)

theorem ratFloor_eq_floor (q : ℚ) : ratFloor q = ⌊q⌋ := by
  rw [ratFloor, Rat.floor_def]
  exact Int.fdiv_eq_ediv _ (by exact_mod_cast Nat.zero_le q.den)

/-- JS `Math.round`: round half towards positive infinity, `⌊q + 1/2⌋`. -/
def jsRound (q : ℚ) : ℤ := ratFloor (qAdd q (mkRat 1 2))

theorem jsRound_eq (q : ℚ) : jsRound q = ⌊q + 1 / 2⌋ := by
  rw [jsRound, qAdd_eq, ratFloor_eq_floor]
  norm_num [Rat.mkRat_eq_div]

/-- JS `Math.max` on two numbers. -/
def jsMax (a b : ℚ) : ℚ := if a ≤ b then b else a

/-- JS `Math.min` on two numbers. -/
def jsMin (a b : ℚ) : ℚ := if a ≤ b then a else b

/-- Clip one incident to a day window, as in resultsManager.ts 897-898: the
start is raised to the day start, the end is lowered to the day end, an open
incident ends at the day end. -/
def clipIncident (dailyStart dailyEnd : Nat) (inc : DowntimeRecord) : Nat × Nat :=
  (max inc.startTime dailyStart,
   match inc.endTime with
   | some e => min e dailyEnd
   | none => dailyEnd)

/-- Accumulate a boundary event into the timeline map
(`timelinePoints.set(t, (timelinePoints.get(t) || 0) + delta)`). -/
def addPoint (pts : List (Nat × ℤ)) (t : Nat) (delta : ℤ) : List (Nat × ℤ) :=
  setA pts t ((lookupA pts t).getD 0 + delta)

/-- Insert into a list sorted by the time key. -/
def insertSorted (p : Nat × ℤ) : List (Nat × ℤ) → List (Nat × ℤ)
  | [] => [p]
  | q :: rest => if p.1 < q.1 then p :: q :: rest else q :: insertSorted p rest

/-- Sort timeline points by time (the keys are distinct, coming from a JS
`Map`, so this agrees with `Array.sort((a, b) => a[0] - b[0])`). -/
def sortByTime (l : List (Nat × ℤ)) : List (Nat × ℤ) := l.foldr insertSorted []

/-- Timeline of boundary events for one day, built from the clipped incidents
in iteration order: +1 at each start and, when the clipped end is non-zero
(the JS falsy test `if (incident.endTime)`), −1 at the end. -/
def dayTimeline (clipped : List (Nat × Nat)) : List (Nat × ℤ) :=
  clipped.foldl (fun pts c =>
    let pts1 := addPoint pts c.1 1
    if c.2 = 0 then pts1 else addPoint pts1 c.2 (-1)) []

/-- Sweep of the sorted timeline (resultsManager.ts 929-944): elapsed time is
counted as downtime while the number of concurrently-down agents is at least
`minAgentsForDowntime`, including the final stretch to the day end. -/
def sweepDay (dailyStart dailyEnd : Nat) (pts : List (Nat × ℤ)) : ℤ :=
  let f := pts.foldl (fun (acc : ℤ × ℤ × ℤ) p =>
    let dd := if (minAgentsForDowntime : ℤ) ≤ acc.2.1 then acc.1 + ((p.1 : ℤ) - acc.2.2) else acc.1
    (dd, acc.2.1 + p.2, (p.1 : ℤ))) (0, 0, (dailyStart : ℤ))
  if (minAgentsForDowntime : ℤ) ≤ f.2.1 then f.1 + ((dailyEnd : ℤ) - f.2.2) else f.1

/-- Embedding of `ResultsManager.calculateUptimePercentage` (resultsManager.ts
860-962).  The `timeRange` argument is part of the signature but never read
by the body.  The function walks the 45 calendar days preceding today: for
each day with at least one stored record for the target it clips all agents'
incidents to the day, sweeps the merged timeline, converts the fused downtime
into a percentage of the 24-hour day clamped to [0, 100], and finally
averages the per-day percentages over the days with data (100 when there are
none), rounded to two decimals.  The model requires `now` to be at least 45
days past the epoch, as every real wall clock is. -/
def calculateUptimePercentage (now : Nat) (results : ResultsStore) (targetId : Nat)
    (timeRange : Nat × Nat) : ℚ :=
  let startDay := now / MS_PER_DAY - 45
  let acc := (List.range 45).foldl (fun (acc : ℚ × Nat) i =>
    let d := startDay + i
    let dailyStart := d * MS_PER_DAY
    let dailyEnd := (d + 1) * MS_PER_DAY
    let dayRecords := results.filterMap (fun ap =>
      (lookupA ap.2 targetId).bind fun tm => lookupA tm d)
    if dayRecords.isEmpty then acc
    else
      let clipped := dayRecords.flatMap fun rec =>
        rec.incidents.map (clipIncident dailyStart dailyEnd)
      let dd := sweepDay dailyStart dailyEnd (sortByTime (dayTimeline clipped))
      let dailyUptimePercentage : ℚ := qSub 100 (qMul (qDiv (dd : ℚ) (MS_PER_DAY : ℚ)) 100)
      (qAdd acc.1 (jsMax 0 (jsMin 100 dailyUptimePercentage)), acc.2 + 1)) (0, 0)
  if acc.2 = 0 then 100
  else qDiv ((jsRound (qMul (qDiv acc.1 ((acc.2 : Nat) : ℚ)) 100) : ℤ) : ℚ) 100

/-! ## C2: scenario S1 (single-agent outage) -/

/-- Check result of scenario S1 for http target 1 (no response time is
involved in the scenario). -/
def s1Result (ts : Nat) (ok : Bool) : MonitoringResult :=
  { targetId := 1, timestamp := ts, success := ok, responseTime := none }

/-- Scenario S1: one agent, target 1, success at 0, failures at 1000 and
2000, success at 3000. -/
def s1State : ServerState :=
  runSteps [⟨0, "agent-1", s1Result 0 true⟩, ⟨1000, "agent-1", s1Result 1000 false⟩,
    ⟨2000, "agent-1", s1Result 2000 false⟩, ⟨3000, "agent-1", s1Result 3000 true⟩]

/-- C2 (counterexample): the incident part of S1 comes out as claimed — one
incident from 1000 to 3000 with `downtimeMs = 2000` — but the computed uptime
percentage for the day is 100, not `100·(1 − 2000/86400000) = 43199/432 ≈
99.998`: `calculateUptimePercentage` applies the `minAgentsForDowntime = 2`
threshold in its sweep with no single-agent branch, so one agent alone never
accumulates fused downtime.  Wall clock taken at day 45 so that the scenario
day is inside the 45-day look-back. -/
theorem s1_uptimePercentage_is_100 :
    recordAt s1State "agent-1" 1 0 =
      some { date := 0, downtimeMs := 2000,
             incidents := [{ startTime := 1000, endTime := some 3000 }],
             responseTimeIntervals := [], isDown := false } ∧
    calculateUptimePercentage (45 * MS_PER_DAY) s1State.results 1 (0, MS_PER_DAY) = 100 ∧
    (100 : ℚ) ≠ 100 * (1 - 2000 / 86400000) := by
  refine ⟨by decide, by decide, by norm_num⟩

/-- C2 (amended): submitting S1's four results yields a daily record with
exactly one incident `startTime = 1000`, `endTime = 3000` and
`downtimeMs = 2000`, and the uptime percentage computed for that day is 100
(not ≈ 99.998), because the fusion sweep requires at least
`minAgentsForDowntime = 2` concurrently-down agents, which a single-agent
deployment can never reach. -/
theorem s1_record_and_uptime :
    recordAt s1State "agent-1" 1 0 =
      some { date := 0, downtimeMs := 2000,
             incidents := [{ startTime := 1000, endTime := some 3000 }],
             responseTimeIntervals := [], isDown := false } ∧
    calculateUptimePercentage (45 * MS_PER_DAY) s1State.results 1 (0, MS_PER_DAY) = 100 := by
  exact ⟨by decide, by decide⟩

/-! ## C3: scenario S5 (consensus uptime fusion) -/

/-- Stored state of scenario S5 for target 7, day 0: agent A down for the
first 20 minutes, agent B down from minute 10 to minute 30, agent C with a
record but no incidents. -/
def s5Results : ResultsStore :=
  [("agent-A", [(7, [(0, ⟨0, 1200000, [⟨0, some 1200000⟩], [], false⟩)])]),
   ("agent-B", [(7, [(0, ⟨0, 1200000, [⟨600000, some 1800000⟩], [], false⟩)])]),
   ("agent-C", [(7, [(0, ⟨0, 0, [], [], false⟩)])])]

/-- C3 (counterexample): on the S5 data the uptime percentage is not
`100·(1 − 10/60) = 250/3 ≈ 83.33` as the claim computes for a 1-hour window:
`calculateUptimePercentage` never reads its window argument.  (Its sweep does
find exactly the 10 overlapping minutes, but divides them by the 24-hour day
over a 45-day look-back.) -/
theorem s5_uptime_not_window_fraction :
    calculateUptimePercentage (45 * MS_PER_DAY) s5Results 7 (0, 3600000) ≠
      100 * (1 - 10 / 60) := by
  have h : calculateUptimePercentage (45 * MS_PER_DAY) s5Results 7 (0, 3600000) =
      mkRat 9931 100 := by decide
  rw [h, Rat.mkRat_eq_div]
  norm_num

/-- C3 (amended): the sweep counts fused downtime only while at least
`minAgentsForDowntime` agents are concurrently down — on S5 exactly the
10-minute overlap — but the percentage divides by the 24-hour day (the window
argument is ignored) and averages over the 45-day look-back days with data,
giving `100 − (600000/86400000)·100` rounded to two decimals, i.e. 99.31. -/
theorem s5_uptime_value :
    calculateUptimePercentage (45 * MS_PER_DAY) s5Results 7 (0, 3600000) = 9931 / 100 := by
  have h : calculateUptimePercentage (45 * MS_PER_DAY) s5Results 7 (0, 3600000) =
      mkRat 9931 100 := by decide
  rw [h, Rat.mkRat_eq_div]
  norm_num

/-! ## C6: out-of-order timestamps rewind the incident timeline -/

/-- State after a single agent submits a failure with timestamp 1000 and then
a success with the older timestamp 500 (processed second, e.g. delivered in a
later batch). -/
def c6State : ServerState :=
  runSteps [⟨1000, "a1", ⟨1, 1000, false, none⟩⟩, ⟨1500, "a1", ⟨1, 500, true, none⟩⟩]

/-- C6 (code bug, evaluated at the failing input): the success with the
older timestamp 500 closes the incident opened at 1000, producing a closed
incident with `endTime = 500 < startTime = 1000` and a negative
`downtimeMs = −500` — the aggregator has no guard against rewinding the
incident timeline, contrary to the claimed invariant `endTime ≥ startTime`. -/
theorem c6_rewound_incident :
    recordAt c6State "a1" 1 0 =
      some { date := 0, downtimeMs := -500,
             incidents := [{ startTime := 1000, endTime := some 500 }],
             responseTimeIntervals := [], isDown := false } ∧
    500 < 1000 := by
  exact ⟨by decide, by decide⟩

/-! ## C7: the open-incident invariant -/

theorem lookupA_mem {α β : Type} [DecidableEq α] (l : List (α × β)) (a : α) (b : β)
    (h : lookupA l a = some b) : (a, b) ∈ l := by
  induction l with
  | nil => simp [lookupA] at h
  | cons p rest ih =>
    obtain ⟨k, v⟩ := p
    simp only [lookupA] at h
    by_cases hk : k = a
    · subst hk
      rw [if_pos rfl] at h
      cases h
      exact List.mem_cons_self _ _
    · rw [if_neg hk] at h
      exact List.mem_cons_of_mem _ (ih h)

/-- Per-record shape invariant: a record marked up has only closed incidents;
a record marked down has a single open incident, sitting at the end of the
list. -/
def recInv (rec : DailyDowntimeRecord) : Prop :=
  (rec.isDown = false → ∀ i ∈ rec.incidents, i.endTime ≠ none) ∧
  (rec.isDown = true → ∃ pre last, rec.incidents = pre ++ [last] ∧ last.endTime = none ∧
    ∀ i ∈ pre, i.endTime ≠ none)

theorem recInv_congr (a b : DailyDowntimeRecord) (h1 : a.incidents = b.incidents)
    (h2 : a.isDown = b.isDown) (h : recInv b) : recInv a := by
  unfold recInv
  rw [h1, h2]
  exact h

theorem updateResponseTimeIntervals_fields (rec : DailyDowntimeRecord)
    (result : MonitoringResult) :
    (updateResponseTimeIntervals rec result).incidents = rec.incidents ∧
      (updateResponseTimeIntervals rec result).isDown = rec.isDown := by
  simp only [updateResponseTimeIntervals]
  repeat' split
  all_goals exact ⟨rfl, rfl⟩

theorem recInv_freshDailyRecord (d : Nat) : recInv (freshDailyRecord d) := by
  constructor
  · intro _ i hi
    simp [freshDailyRecord] at hi
  · intro h
    simp [freshDailyRecord] at h

theorem recInv_incidentStep (now : Nat) (isDown : Bool) (ts : Nat)
    (rec : DailyDowntimeRecord) (h : recInv rec) :
    recInv (incidentStep now isDown ts rec) := by
  cases isDown with
  | false =>
    cases hr : rec.isDown with
    | false =>
      have : incidentStep now false ts rec = rec := by
        unfold incidentStep
        simp [hr]
      rw [this]
      exact h
    | true =>
      obtain ⟨pre, last, heq, hopen, hclosed⟩ := h.2 hr
      have hstep : incidentStep now false ts rec =
          { rec with
              incidents := rec.incidents.dropLast ++
                [{ startTime := last.startTime, endTime := some ts }],
              downtimeMs := rec.downtimeMs +
                calculateDowntimeDuration now last.startTime (some ts),
              isDown := false } := by
        unfold incidentStep
        rw [heq]
        simp [hr, List.getLast?_concat, hopen]
      rw [hstep]
      constructor
      · intro _ i hi
        simp only [heq, List.dropLast_concat] at hi
        rcases List.mem_append.mp hi with h' | h'
        · exact hclosed i h'
        · simp at h'
          simp [h']
      · intro hcontra
        simp at hcontra
  | true =>
    cases hr : rec.isDown with
    | false =>
      have hstep : incidentStep now true ts rec =
          { rec with incidents := rec.incidents ++ [{ startTime := ts, endTime := none }],
                     isDown := true } := by
        unfold incidentStep
        simp [hr]
      rw [hstep]
      constructor
      · intro hcontra
        simp at hcontra
      · intro _
        refine ⟨rec.incidents, { startTime := ts, endTime := none }, rfl, rfl, ?_⟩
        exact h.1 hr
    | true =>
      have : incidentStep now true ts rec = rec := by
        unfold incidentStep
        simp [hr]
      rw [this]
      exact h

/-- State-wide invariant: every stored daily record satisfies `recInv`. -/
def stateRecInv (st : ServerState) : Prop :=
  ∀ ap ∈ st.results, ∀ tp ∈ ap.2, ∀ dp ∈ tp.2, recInv dp.2

theorem stateRecInv_empty : stateRecInv emptyState := by
  intro ap hap
  simp [emptyState] at hap

theorem stateRecInv_addResult (now : Nat) (st : ServerState) (agentId : String)
    (result : MonitoringResult) (h : stateRecInv st) :
    stateRecInv (addResult now st agentId result) := by
  intro ap hap tp htp dp hdp
  unfold addResult at hap
  simp only at hap
  rcases mem_setA _ _ _ ap hap with hap' | hap'
  case inr => exact h ap hap' tp htp dp hdp
  subst hap'
  simp only at htp
  rcases mem_setA _ _ _ tp htp with htp' | htp'
  case inr =>
    -- the target entry comes from the submitting agent's previous map
    cases hlook : lookupA st.results agentId with
    | none =>
      rw [hlook, Option.getD_none] at htp'
      simp at htp'
    | some am =>
      rw [hlook, Option.getD_some] at htp'
      exact h (agentId, am) (lookupA_mem _ _ _ hlook) tp htp' dp hdp
  subst htp'
  simp only at hdp
  rcases mem_setA _ _ _ dp hdp with hdp' | hdp'
  case inr =>
    cases hlook : lookupA st.results agentId with
    | none =>
      rw [hlook, Option.getD_none] at hdp'
      simp [lookupA] at hdp'
    | some am =>
      rw [hlook, Option.getD_some] at hdp'
      cases hlook2 : lookupA am result.targetId with
      | none =>
        rw [hlook2, Option.getD_none] at hdp'
        simp at hdp'
      | some tm =>
        rw [hlook2, Option.getD_some] at hdp'
        exact h (agentId, am) (lookupA_mem _ _ _ hlook) (result.targetId, tm)
          (lookupA_mem _ _ _ hlook2) dp hdp'
  subst hdp'
  -- the freshly written record satisfies the invariant
  have hrec0 : recInv ((lookupA ((lookupA ((lookupA st.results agentId).getD [])
      result.targetId).getD []) (getDateString result.timestamp)).getD
      (freshDailyRecord (getDateString result.timestamp))) := by
    cases hlook : lookupA st.results agentId with
    | none => simp [lookupA, recInv_freshDailyRecord]
    | some am =>
      rw [Option.getD_some]
      cases hlook2 : lookupA am result.targetId with
      | none => simp [lookupA, recInv_freshDailyRecord]
      | some tm =>
        rw [Option.getD_some]
        cases hlook3 : lookupA tm (getDateString result.timestamp) with
        | none => simp [recInv_freshDailyRecord]
        | some rec0 =>
          rw [Option.getD_some]
          exact h (agentId, am) (lookupA_mem _ _ _ hlook) (result.targetId, tm)
            (lookupA_mem _ _ _ hlook2) (getDateString result.timestamp, rec0)
            (lookupA_mem _ _ _ hlook3)
  have hfields := updateResponseTimeIntervals_fields ((lookupA ((lookupA
      ((lookupA st.results agentId).getD []) result.targetId).getD [])
      (getDateString result.timestamp)).getD (freshDailyRecord (getDateString result.timestamp)))
      result
  exact recInv_incidentStep _ _ _ _ (recInv_congr _ _ hfields.1 hfields.2 hrec0)

theorem stateRecInv_runSteps (steps : List Step) : stateRecInv (runSteps steps) := by
  rw [runSteps]
  have h : ∀ (l : List Step) (st : ServerState), stateRecInv st →
      stateRecInv (l.foldl (fun st s => addResult s.now st s.agentId s.result) st) := by
    intro l
    induction l with
    | nil => intro st hst; exact hst
    | cons s rest ih =>
      intro st hst
      exact ih _ (stateRecInv_addResult s.now st s.agentId s.result hst)
  exact h _ _ stateRecInv_empty

/-- C7: after any sequence of aggregator steps from the empty store, every
daily record that has an open incident has exactly one incident with
`endTime = null`, and that incident is the last element of its list. -/
theorem open_incident_unique_and_last (steps : List Step) (agentId : String)
    (targetId d : Nat) (rec : DailyDowntimeRecord)
    (hrec : recordAt (runSteps steps) agentId targetId d = some rec)
    (hopen : ∃ i ∈ rec.incidents, i.endTime = none) :
    (rec.incidents.filter (fun i => i.endTime.isNone)).length = 1 ∧
      ∃ last, rec.incidents.getLast? = some last ∧ last.endTime = none := by
  have hinv : recInv rec := by
    have hst := stateRecInv_runSteps steps
    unfold recordAt at hrec
    cases hlook : lookupA (runSteps steps).results agentId with
    | none => rw [hlook] at hrec; simp at hrec
    | some am =>
      rw [hlook, Option.some_bind] at hrec
      cases hlook2 : lookupA am targetId with
      | none => rw [hlook2] at hrec; simp at hrec
      | some tm =>
        rw [hlook2, Option.some_bind] at hrec
        exact hst (agentId, am) (lookupA_mem _ _ _ hlook) (targetId, tm)
          (lookupA_mem _ _ _ hlook2) (d, rec) (lookupA_mem _ _ _ hrec)
  cases hdown : rec.isDown with
  | false =>
    obtain ⟨i, hi, hiopen⟩ := hopen
    exact absurd hiopen (hinv.1 hdown i hi)
  | true =>
    obtain ⟨pre, last, heq, hlast, hclosed⟩ := hinv.2 hdown
    rw [heq]
    constructor
    · rw [List.filter_append]
      have hpre : pre.filter (fun i => i.endTime.isNone) = [] := by
        rw [List.filter_eq_nil_iff]
        intro i hi
        have := hclosed i hi
        simp [Option.isNone]
        cases hie : i.endTime with
        | none => exact absurd hie this
        | some _ => simp
      rw [hpre]
      simp [hlast]
    · refine ⟨last, ?_, hlast⟩
      rw [List.getLast?_concat]

/-- Witness for C7 at a concrete input: one agent submits one failure; the
stored record has an open incident, which is unique and last. -/
theorem open_incident_unique_and_last_witness :
    ∃ rec, recordAt (runSteps [⟨1000, "a", ⟨1, 1000, false, none⟩⟩]) "a" 1 0 = some rec ∧
      (rec.incidents.filter (fun i => i.endTime.isNone)).length = 1 ∧
      ∃ last, rec.incidents.getLast? = some last ∧ last.endTime = none := by
  have hrec : recordAt (runSteps [⟨1000, "a", ⟨1, 1000, false, none⟩⟩]) "a" 1 0 =
      some { date := 0, downtimeMs := 0,
             incidents := [{ startTime := 1000, endTime := none }],
             responseTimeIntervals := [], isDown := true } := by decide
  have h := open_incident_unique_and_last [⟨1000, "a", ⟨1, 1000, false, none⟩⟩] "a" 1 0 _
    hrec ⟨{ startTime := 1000, endTime := none }, by decide, rfl⟩
  exact ⟨_, hrec, h⟩

/-! ## C8: response-time buckets -/

theorem find?_congrOn {α : Type} (l : List α) (p q : α → Bool)
    (h : ∀ x ∈ l, p x = q x) : l.find? p = l.find? q := by
  induction l with
  | nil => rfl
  | cons x rest ih =>
    rw [List.find?_cons, List.find?_cons, h x (List.mem_cons_self _ _)]
    cases q x with
    | true => rfl
    | false => exact ih fun y hy => h y (List.mem_cons_of_mem _ hy)

theorem updateFirst_congrOn {α : Type} (p q : α → Bool) (f : α → α) (l : List α)
    (h : ∀ x ∈ l, p x = q x) : updateFirst p f l = updateFirst q f l := by
  induction l with
  | nil => rfl
  | cons x rest ih =>
    simp only [updateFirst, h x (List.mem_cons_self _ _)]
    cases q x with
    | true => rfl
    | false =>
      simp only [Bool.false_eq_true, if_neg]
      rw [ih fun y hy => h y (List.mem_cons_of_mem _ hy)]

theorem mem_updateFirst {α : Type} (p : α → Bool) (f : α → α) (l : List α) :
    ∀ x ∈ updateFirst p f l, x ∈ l ∨ ∃ y ∈ l, x = f y := by
  induction l with
  | nil => intro x hx; simp [updateFirst] at hx
  | cons a rest ih =>
    intro x hx
    simp only [updateFirst] at hx
    by_cases hp : p a
    · rw [if_pos hp] at hx
      rcases List.mem_cons.mp hx with h | h
      · exact Or.inr ⟨a, List.mem_cons_self _ _, h⟩
      · exact Or.inl (List.mem_cons_of_mem _ h)
    · rw [if_neg hp] at hx
      rcases List.mem_cons.mp hx with h | h
      · exact Or.inl (h ▸ List.mem_cons_self _ _)
      · rcases ih x h with h' | ⟨y, hy, hxy⟩
        · exact Or.inl (List.mem_cons_of_mem _ h')
        · exact Or.inr ⟨y, List.mem_cons_of_mem _ hy, hxy⟩

theorem updateFirst_map_eq {α β : Type} (p : α → Bool) (f : α → α) (g : α → β)
    (l : List α) (h : ∀ x, g (f x) = g x) : (updateFirst p f l).map g = l.map g := by
  induction l with
  | nil => rfl
  | cons a rest ih =>
    simp only [updateFirst]
    by_cases hp : p a
    · rw [if_pos hp]
      simp [h a]
    · rw [if_neg hp]
      simp [ih]

theorem intervalEndOf_eq (ts : Nat) :
    intervalEndOf ts = intervalStartOf ts + THIRTY_MINUTES - 1 := by
  unfold intervalEndOf intervalStartOf THIRTY_MINUTES
  omega

theorem intervalStartOf_bounds (ts : Nat) :
    intervalStartOf ts ≤ ts ∧ ts < intervalStartOf ts + THIRTY_MINUTES := by
  have h30 : THIRTY_MINUTES = 1800000 := by decide
  have hsod : startOfDay ts ≤ ts := Nat.div_mul_le_self ts MS_PER_DAY
  have hdm := Nat.div_add_mod (ts - startOfDay ts) THIRTY_MINUTES
  have hlt : (ts - startOfDay ts) % THIRTY_MINUTES < THIRTY_MINUTES :=
    Nat.mod_lt _ (by decide)
  unfold intervalStartOf
  rw [h30] at hdm hlt ⊢
  omega

theorem intervalStartOf_boundary (ts : Nat) (h : ts % THIRTY_MINUTES = 0) :
    intervalStartOf ts = ts := by
  have hsod : startOfDay ts ≤ ts := Nat.div_mul_le_self ts MS_PER_DAY
  have hdvd1 : THIRTY_MINUTES ∣ ts := Nat.dvd_of_mod_eq_zero h
  have hdvd2 : THIRTY_MINUTES ∣ startOfDay ts := by
    refine ⟨(ts / MS_PER_DAY) * 48, ?_⟩
    unfold startOfDay MS_PER_DAY THIRTY_MINUTES
    ring
  have hdvd3 : THIRTY_MINUTES ∣ (ts - startOfDay ts) := Nat.dvd_sub' hdvd1 hdvd2
  have hcancel := Nat.div_mul_cancel hdvd3
  unfold intervalStartOf
  omega

theorem qAvg_eq (a r : ℚ) (n : Nat) :
    qDiv (qAdd (qMul a (n : ℚ)) r) ((n + 1 : Nat) : ℚ) = (a * n + r) / ((n : ℚ) + 1) := by
  rw [qDiv_eq, qAdd_eq, qMul_eq]
  push_cast
  ring_nf

/-- C8 (amended): for a successful result with a present, non-zero response
time, the record is updated exactly at the 30-minute bucket containing the
timestamp (`[start, start + 30min)`, so a timestamp on a boundary starts the
later bucket): a missing bucket is appended with count 1 and the response
time as average, an existing one is updated by
`mean ← (mean·count + r)/(count + 1); count ← count + 1`; a failed check (or
a missing or zero response time, see the counterexample) changes nothing;
distinct bucket start times and the stored `endTime = startTime + 30min − 1`
shape are preserved. -/
theorem updateResponseTimeIntervals_spec (rec : DailyDowntimeRecord)
    (res : MonitoringResult) (r : ℚ)
    (hwf : ∀ i ∈ rec.responseTimeIntervals, i.endTime = i.startTime + THIRTY_MINUTES - 1)
    (hnd : (rec.responseTimeIntervals.map ResponseTimeInterval.startTime).Nodup) :
    (res.success = false → updateResponseTimeIntervals rec res = rec) ∧
    (res.responseTime = none → updateResponseTimeIntervals rec res = rec) ∧
    (res.responseTime = some 0 → updateResponseTimeIntervals rec res = rec) ∧
    (∀ i ∈ (updateResponseTimeIntervals rec res).responseTimeIntervals,
      i.endTime = i.startTime + THIRTY_MINUTES - 1) ∧
    ((updateResponseTimeIntervals rec res).responseTimeIntervals.map
      ResponseTimeInterval.startTime).Nodup ∧
    (res.timestamp % THIRTY_MINUTES = 0 → intervalStartOf res.timestamp = res.timestamp) ∧
    (res.success = true → res.responseTime = some r → r ≠ 0 →
      intervalStartOf res.timestamp ≤ res.timestamp ∧
      res.timestamp < intervalStartOf res.timestamp + THIRTY_MINUTES ∧
      ((rec.responseTimeIntervals.find?
          (fun i => i.startTime == intervalStartOf res.timestamp) = none ∧
        (updateResponseTimeIntervals rec res).responseTimeIntervals =
          rec.responseTimeIntervals ++
            [{ startTime := intervalStartOf res.timestamp,
               endTime := intervalStartOf res.timestamp + THIRTY_MINUTES - 1,
               avgResponseTime := r, count := 1 }]) ∨
       (∃ old, rec.responseTimeIntervals.find?
          (fun i => i.startTime == intervalStartOf res.timestamp) = some old ∧
        (updateResponseTimeIntervals rec res).responseTimeIntervals =
          updateFirst (fun i => i.startTime == intervalStartOf res.timestamp)
            (fun o => { o with count := o.count + 1, avgResponseTime := (o.avgResponseTime * o.count + r) / ((o.count : ℚ) + 1) })
            rec.responseTimeIntervals))) := by
  have heq_e : intervalEndOf res.timestamp = intervalStartOf res.timestamp + THIRTY_MINUTES - 1 :=
    intervalEndOf_eq _
  have hpred : ∀ i ∈ rec.responseTimeIntervals,
      (i.startTime == intervalStartOf res.timestamp && i.endTime == intervalEndOf res.timestamp)
        = (i.startTime == intervalStartOf res.timestamp) := by
    intro i hi
    cases hst : (i.startTime == intervalStartOf res.timestamp) with
    | false => simp
    | true =>
      have hs' : i.startTime = intervalStartOf res.timestamp := eq_of_beq hst
      have he' : i.endTime = intervalEndOf res.timestamp := by
        rw [hwf i hi, hs', heq_e]
      simp [he']
  have hmem_of_find_none :
      rec.responseTimeIntervals.find? (fun i =>
        i.startTime == intervalStartOf res.timestamp &&
          i.endTime == intervalEndOf res.timestamp) = none →
      ∀ i ∈ rec.responseTimeIntervals, i.startTime ≠ intervalStartOf res.timestamp := by
    intro hf i hi hst
    have hnone := List.find?_eq_none.mp hf i hi
    rw [hpred i hi] at hnone
    simp [hst] at hnone
  refine ⟨?_, ?_, ?_, ?_, ?_, ?_, ?_⟩
  · intro h
    simp [updateResponseTimeIntervals, h]
  · intro h
    cases hs : res.success <;> simp [updateResponseTimeIntervals, hs, h]
  · intro h
    cases hs : res.success <;> simp [updateResponseTimeIntervals, hs, h]
  · -- bucket shape is preserved
    cases hs : res.success with
    | false => simp only [updateResponseTimeIntervals, hs]; simpa using hwf
    | true =>
      cases hr : res.responseTime with
      | none => simp only [updateResponseTimeIntervals, hs, hr]; simpa using hwf
      | some rr =>
        by_cases h0 : rr = 0
        · simp only [updateResponseTimeIntervals, hs, hr, h0]
          simpa using hwf
        · cases hf : rec.responseTimeIntervals.find? (fun i =>
              i.startTime == intervalStartOf res.timestamp &&
                i.endTime == intervalEndOf res.timestamp) with
          | none =>
            simp only [updateResponseTimeIntervals, hs, hr, if_neg h0, hf]
            intro i hi
            simp only [Bool.not_true, Bool.false_eq_true, if_false] at hi
            rcases List.mem_append.mp hi with h' | h'
            · exact hwf i h'
            · simp at h'
              rw [h']
              exact heq_e
          | some o =>
            simp only [updateResponseTimeIntervals, hs, hr, if_neg h0, hf]
            intro i hi
            simp only [Bool.not_true, Bool.false_eq_true, if_false] at hi
            rcases mem_updateFirst _ _ _ i hi with h' | ⟨j, hj, hij⟩
            · exact hwf i h'
            · rw [hij]
              exact hwf j hj
  · -- distinct bucket start times are preserved
    cases hs : res.success with
    | false => simp only [updateResponseTimeIntervals, hs]; simpa using hnd
    | true =>
      cases hr : res.responseTime with
      | none => simp only [updateResponseTimeIntervals, hs, hr]; simpa using hnd
      | some rr =>
        by_cases h0 : rr = 0
        · simp only [updateResponseTimeIntervals, hs, hr, h0]
          simpa using hnd
        · cases hf : rec.responseTimeIntervals.find? (fun i =>
              i.startTime == intervalStartOf res.timestamp &&
                i.endTime == intervalEndOf res.timestamp) with
          | none =>
            simp only [updateResponseTimeIntervals, hs, hr, if_neg h0, hf]
            simp only [Bool.not_true, Bool.false_eq_true, if_false]
            rw [List.map_append]
            simp only [List.map_cons, List.map_nil]
            rw [List.nodup_append]
            refine ⟨hnd, List.nodup_singleton _, ?_⟩
            intro a ha hb
            simp at hb
            obtain ⟨i, hi, hia⟩ := List.mem_map.mp ha
            exact hmem_of_find_none hf i hi (hb ▸ hia)
          | some o =>
            simp only [updateResponseTimeIntervals, hs, hr, if_neg h0, hf]
            simp only [Bool.not_true, Bool.false_eq_true, if_false]
            have hgen : ∀ (p : ResponseTimeInterval → Bool) (f : ResponseTimeInterval → ResponseTimeInterval),
                (∀ x, (f x).startTime = x.startTime) →
                ((updateFirst p f rec.responseTimeIntervals).map
                  ResponseTimeInterval.startTime).Nodup := by
              intro p f hfpres
              rw [updateFirst_map_eq p f _ _ hfpres]
              exact hnd
            exact hgen _ _ (fun x => rfl)
  · exact intervalStartOf_boundary res.timestamp
  · intro hs hr h0
    refine ⟨(intervalStartOf_bounds res.timestamp).1, (intervalStartOf_bounds res.timestamp).2, ?_⟩
    have hfind := find?_congrOn rec.responseTimeIntervals _ _ hpred
    cases hf : rec.responseTimeIntervals.find? (fun i =>
        i.startTime == intervalStartOf res.timestamp) with
    | none =>
      left
      refine ⟨rfl, ?_⟩
      have hfull : rec.responseTimeIntervals.find? (fun i =>
          i.startTime == intervalStartOf res.timestamp &&
            i.endTime == intervalEndOf res.timestamp) = none := by
        rw [hfind, hf]
      simp only [updateResponseTimeIntervals, hs, hr, if_neg h0, hfull]
      simp only [Bool.not_true, Bool.false_eq_true, if_false]
      rw [heq_e]
    | some o =>
      right
      refine ⟨o, rfl, ?_⟩
      have hfull : rec.responseTimeIntervals.find? (fun i =>
          i.startTime == intervalStartOf res.timestamp &&
            i.endTime == intervalEndOf res.timestamp) = some o := by
        rw [hfind, hf]
      simp only [updateResponseTimeIntervals, hs, hr, if_neg h0, hfull]
      simp only [Bool.not_true, Bool.false_eq_true, if_false]
      rw [updateFirst_congrOn _ _ _ _ hpred]
      congr 1
      funext old
      rw [qAvg_eq]

/-- C8 (counterexample): a successful check carrying the response time 0 has
a response time, yet the JS guard `!result.responseTime` treats 0 as falsy
and the record keeps no bucket at all — the claim would require a bucket with
count 1. -/
theorem responseTime_zero_not_folded :
    (updateResponseTimeIntervals (freshDailyRecord 0)
      { targetId := 1, timestamp := 0, success := true,
        responseTime := some 0 }).responseTimeIntervals = [] ∧
    ({ targetId := 1, timestamp := 0, success := true,
       responseTime := some 0 } : MonitoringResult).success = true ∧
    ({ targetId := 1, timestamp := 0, success := true,
       responseTime := some 0 } : MonitoringResult).responseTime = some 0 := by
  exact ⟨rfl, rfl, rfl⟩

/-- Witness for C8 at a concrete input: a successful check with response time
5 at the exact bucket boundary 1 800 000 creates the bucket starting at that
very timestamp (the later bucket) with count 1. -/
theorem updateResponseTimeIntervals_spec_witness :
    intervalStartOf 1800000 = 1800000 ∧
    (updateResponseTimeIntervals (freshDailyRecord 0)
      { targetId := 1, timestamp := 1800000, success := true,
        responseTime := some 5 }).responseTimeIntervals =
      [{ startTime := 1800000, endTime := 3599999, avgResponseTime := 5, count := 1 }] := by
  have h := updateResponseTimeIntervals_spec (freshDailyRecord 0)
    { targetId := 1, timestamp := 1800000, success := true, responseTime := some 5 } 5
    (by intro i hi; simp [freshDailyRecord] at hi)
    (by simp [freshDailyRecord])
  obtain ⟨-, -, -, -, -, hbound, hfold⟩ := h
  have hb := hbound (by decide)
  obtain ⟨-, -, hcase⟩ := hfold rfl rfl (by norm_num)
  refine ⟨hb, ?_⟩
  rcases hcase with ⟨-, happ⟩ | ⟨o, hfind, -⟩
  · rw [happ]
    rw [hb]
    rfl
  · rw [show (freshDailyRecord 0).responseTimeIntervals = [] from rfl] at hfind
    simp at hfind

/-! ## C10: target-status rebuild on load (`loadResultsFromFile`) -/

/-- Flattened sequence of `updateTargetStatus` calls issued by
`loadResultsFromFile` (resultsManager.ts 61-73) while walking the persisted
blob in iteration order: one call per daily record whose `isDown` flag is
true, with that record's agent and target. -/
def loadCalls (data : ResultsStore) : List (String × Nat) :=
  data.flatMap fun ap =>
    ap.2.flatMap fun tp =>
      tp.2.filterMap fun dp =>
        if dp.2.isDown then some (ap.1, tp.1) else none

/-- Target-status map rebuilt from the persisted results blob, as
`loadResultsFromFile` does starting from an empty map. -/
def loadTargetStatusFromRecords (now : Nat) (data : ResultsStore) : List (Nat × TargetStatus) :=
  (loadCalls data).foldl (fun acc c => updateTargetStatus now acc c.2 c.1 true) []

/-- An agent has a down-entry for a target in a status map. -/
def entryTrue (m : List (Nat × TargetStatus)) (tid : Nat) (aid : String) : Prop :=
  ∃ st, lookupA m tid = some st ∧ lookupA st.agentsReporting aid = some true

theorem lookupA_setA_reporting (rep : List (String × Bool)) (aid' aid : String) (b : Bool) :
    lookupA (setA rep aid' b) aid = if aid = aid' then some b else lookupA rep aid :=
  lookupA_setA rep aid' aid b

theorem entryTrue_updateTargetStatus (now : Nat) (m : List (Nat × TargetStatus))
    (tid' : Nat) (aid' : String) (tid : Nat) (aid : String) :
    entryTrue (updateTargetStatus now m tid' aid' true) tid aid ↔
      (tid' = tid ∧ aid' = aid) ∨ entryTrue m tid aid := by
  unfold updateTargetStatus entryTrue
  by_cases ht : tid = tid'
  · subst ht
    rw [lookupA_setA]
    rw [if_pos rfl]
    have hrep : (updateTargetStatusCore now ((lookupA m tid).getD (freshTargetStatus now tid))
        aid' true).agentsReporting =
        setA ((lookupA m tid).getD (freshTargetStatus now tid)).agentsReporting aid' true := rfl
    constructor
    · rintro ⟨st, hst, hlook⟩
      cases hst
      rw [hrep, lookupA_setA_reporting] at hlook
      by_cases ha : aid = aid'
      · exact Or.inl ⟨rfl, ha.symm⟩
      · rw [if_neg ha] at hlook
        cases hm : lookupA m tid with
        | none =>
          rw [hm, Option.getD_none] at hlook
          simp [freshTargetStatus, lookupA] at hlook
        | some s =>
          rw [hm, Option.getD_some] at hlook
          exact Or.inr ⟨s, rfl, hlook⟩
    · rintro (⟨-, ha⟩ | ⟨s, hs, hlook⟩)
      · refine ⟨_, rfl, ?_⟩
        rw [hrep, lookupA_setA_reporting, if_pos ha.symm]
      · refine ⟨_, rfl, ?_⟩
        rw [hrep, lookupA_setA_reporting]
        by_cases ha : aid = aid'
        · rw [if_pos ha]
        · rw [if_neg ha, hs, Option.getD_some]
          exact hlook
  · rw [lookupA_setA, if_neg ht]
    constructor
    · rintro ⟨st, hst, hlook⟩
      exact Or.inr ⟨st, hst, hlook⟩
    · rintro (⟨h1, -⟩ | ⟨st, hst, hlook⟩)
      · exact absurd h1.symm ht
      · exact ⟨st, hst, hlook⟩

theorem entryTrue_foldCalls (now : Nat) (calls : List (String × Nat)) (tid : Nat) (aid : String) :
    ∀ acc, entryTrue (calls.foldl (fun acc c => updateTargetStatus now acc c.2 c.1 true) acc)
      tid aid ↔ (aid, tid) ∈ calls ∨ entryTrue acc tid aid := by
  induction calls with
  | nil =>
    intro acc
    simp [List.foldl]
  | cons c rest ih =>
    intro acc
    rw [List.foldl_cons, ih, entryTrue_updateTargetStatus]
    constructor
    · rintro (h | (⟨h1, h2⟩ | h))
      · exact Or.inl (List.mem_cons_of_mem _ h)
      · left
        have : (aid, tid) = c := by
          obtain ⟨c1, c2⟩ := c
          simp at h1 h2
          simp [h1, h2]
        rw [this]
        exact List.mem_cons_self _ _
      · exact Or.inr h
    · rintro (h | h)
      · rcases List.mem_cons.mp h with h' | h'
        · right; left
          obtain ⟨c1, c2⟩ := c
          cases h'
          exact ⟨rfl, rfl⟩
        · exact Or.inl h'
      · right; right; exact h

theorem mem_loadCalls (data : ResultsStore) (aid : String) (tid : Nat) :
    (aid, tid) ∈ loadCalls data ↔
      ∃ ap ∈ data, ap.1 = aid ∧ ∃ tp ∈ ap.2, tp.1 = tid ∧ ∃ dp ∈ tp.2, dp.2.isDown = true := by
  unfold loadCalls
  simp only [List.mem_flatMap, List.mem_filterMap]
  constructor
  · rintro ⟨ap, hap, tp, htp, dp, hdp, hif⟩
    by_cases hd : dp.2.isDown
    · rw [if_pos hd] at hif
      cases hif
      exact ⟨ap, hap, rfl, tp, htp, rfl, dp, hdp, hd⟩
    · rw [if_neg hd] at hif
      cases hif
  · rintro ⟨ap, hap, ha, tp, htp, ht, dp, hdp, hd⟩
    refine ⟨ap, hap, tp, htp, dp, hdp, ?_⟩
    rw [if_pos hd, ha, ht]

/-- C10 (amended): after a restart the rebuilt status map contains a
down-entry for agent `aid` under target `tid` exactly when SOME persisted
daily record of that (agent, target) pair has `isDown = true` — not only when
the pair's last record was down — and every entry the rebuild creates has
value true, so right after a restart the consensus counts range only over
previously-down reports. -/
theorem loadTargetStatus_entries (now : Nat) (data : ResultsStore) (aid : String) (tid : Nat) :
    (entryTrue (loadTargetStatusFromRecords now data) tid aid ↔
      ∃ ap ∈ data, ap.1 = aid ∧ ∃ tp ∈ ap.2, tp.1 = tid ∧ ∃ dp ∈ tp.2, dp.2.isDown = true) ∧
    (∀ st, lookupA (loadTargetStatusFromRecords now data) tid = some st →
      ∀ v, lookupA st.agentsReporting aid = some v → v = true) := by
  constructor
  · rw [loadTargetStatusFromRecords, entryTrue_foldCalls, mem_loadCalls]
    have hempty : ¬ entryTrue [] tid aid := by
      rintro ⟨st, hst, -⟩
      simp [lookupA] at hst
    simp [hempty]
  · -- every stored report value is true
    have hvals : ∀ (calls : List (String × Nat)) (acc : List (Nat × TargetStatus)),
        (∀ p ∈ acc, ∀ q ∈ p.2.agentsReporting, q.2 = true) →
        ∀ p ∈ calls.foldl (fun acc c => updateTargetStatus now acc c.2 c.1 true) acc,
          ∀ q ∈ p.2.agentsReporting, q.2 = true := by
      intro calls
      induction calls with
      | nil => intro acc hacc; exact hacc
      | cons c rest ih =>
        intro acc hacc
        rw [List.foldl_cons]
        refine ih _ ?_
        intro p hp q hq
        unfold updateTargetStatus at hp
        rcases mem_setA _ _ _ p hp with hp' | hp'
        · subst hp'
          have hrep : (updateTargetStatusCore now
              ((lookupA acc c.2).getD (freshTargetStatus now c.2)) c.1 true).agentsReporting =
              setA ((lookupA acc c.2).getD (freshTargetStatus now c.2)).agentsReporting
                c.1 true := rfl
          rw [hrep] at hq
          rcases mem_setA _ _ _ q hq with hq' | hq'
          · rw [hq']
          · cases hm : lookupA acc c.2 with
            | none =>
              rw [hm, Option.getD_none] at hq'
              simp [freshTargetStatus] at hq'
            | some s =>
              rw [hm, Option.getD_some] at hq'
              exact hacc (c.2, s) (lookupA_mem _ _ _ hm) q hq'
        · exact hacc p hp' q hq
    intro st hst v hv
    have hmem := hvals (loadCalls data) [] (by intro p hp; simp at hp) (tid, st)
      (lookupA_mem _ _ _ hst) (aid, v) (lookupA_mem _ _ _ hv)
    exact hmem

/-- Persisted blob with a single (agent, target) pair whose day-0 record is
down and whose later day-1 record — the last one — is up. -/
def c10Data : ResultsStore :=
  [("a", [(1, [(0, ⟨0, 5000, [⟨0, some 5000⟩], [], true⟩), (1, ⟨1, 0, [], [], false⟩)])])]

/-- C10 (counterexample): rebuilding from `c10Data` creates the entry
`"a" ↦ true` for target 1 (and flips the consensus to down, the single report
being authoritative) although the pair's last persisted record has
`isDown = false` — the claim would require no entry for such a pair, but the
load loop fires on every down record, not on the last one. -/
theorem load_creates_entry_despite_last_up :
    loadTargetStatusFromRecords 0 c10Data =
      [(1, { targetId := 1, isDown := true, agentsReporting := [("a", true)],
             lastUpdated := 0 })] ∧
    lookupA ((lookupA ((lookupA c10Data "a").getD []) 1).getD []) 1 =
      some ⟨1, 0, [], [], false⟩ := by
  exact ⟨by decide, by decide⟩

/-- Witness for C10 at a concrete input: on `c10Data` the amended
characterisation yields the down-entry for agent `a` under target 1. -/
theorem loadTargetStatus_entries_witness :
    entryTrue (loadTargetStatusFromRecords 0 c10Data) 1 "a" := by
  exact (loadTargetStatus_entries 0 c10Data "a" 1).1.mpr (by decide)

end Storm
